import Mathlib

/-!
Shallow embedding of the `relay` caching reverse proxy (Rust sources:
`src/cache.rs`, `src/config.rs`, `src/storage.rs`, `src/handlers.rs`,
`src/metrics.rs`).  Machine `u64` arithmetic is modelled on `Nat` with an
explicit `% 2 ^ 64` where the Rust code can overflow; `Instant` values and
`Duration` values are modelled as `Nat` (monotonic clock readings and spans
in abstract ticks); opaque response bodies are modelled as `String`.
The handler is modelled as a sequential function of one request: the
upstream outcome for the request is supplied as a parameter, and the
result records the response, the post-state of the storage map, the
metric counters, and instrumentation counts of the storage/upstream
operations the code performed.
-/

namespace Relay

/-! ## Character classes (ASCII fragment of the Rust `char` predicates) -/

/-- ASCII decimal digit, the character class accepted by `u64::from_str`. -/
def isAsciiDigit (c : Char) : Bool :=
  decide (48 ≤ c.toNat ∧ c.toNat ≤ 57)

/-- ASCII letter: the ASCII fragment of Rust `char::is_alphabetic`
(the inputs relevant to the spec are ASCII). -/
def isAlphaChar (c : Char) : Bool :=
  decide ((65 ≤ c.toNat ∧ c.toNat ≤ 90) ∨ (97 ≤ c.toNat ∧ c.toNat ≤ 122))

/-- ASCII whitespace: the ASCII fragment of the class removed by `str::trim`. -/
def isSpaceChar (c : Char) : Bool :=
  decide (c.toNat = 32 ∨ c.toNat = 9 ∨ c.toNat = 10 ∨ c.toNat = 13)

/-- Model of `str::trim`: drop whitespace from both ends. -/
def rustTrim (cs : List Char) : List Char :=
  ((cs.dropWhile isSpaceChar).reverse.dropWhile isSpaceChar).reverse

/-! ## Duration parsing (`config.rs::parse_duration`) -/

/-- Numeric value of a list of decimal digit characters, most significant first. -/
def natOfDigits (cs : List Char) : Nat :=
  cs.foldl (fun a c => a * 10 + (c.toNat - 48)) 0

/-- Drop one leading plus sign, as `u64::from_str` accepts. -/
def stripPlus (cs : List Char) : List Char :=
  match cs with
  | c :: rest => if c = '+' then rest else cs
  | [] => cs

/-- Model of `str::parse::<u64>()`: an optional leading plus sign, then a
non-empty run of decimal digits whose value fits in 64 bits. -/
def parseU64 (cs : List Char) : Option Nat :=
  let digits := stripPlus cs
  if digits ≠ [] ∧ digits.all isAsciiDigit then
    let v := natOfDigits digits
    if v < 2 ^ 64 then some v else none
  else none

/-- Seconds multiplier for a unit suffix, as matched in `parse_duration`. -/
def unitMultiplier (unit : List Char) : Option Nat :=
  if unit = ['s'] then some 1
  else if unit = ['m'] then some 60
  else if unit = ['h'] then some 3600
  else if unit = ['d'] then some 86400
  else none

/-- Embedding of `config.rs::parse_duration` (the live parser used through
serde).  The result is the duration in whole seconds.  Rust computes
`value * multiplier` in `u64`, which wraps modulo `2 ^ 64` under the release
profile; the wrap is modelled explicitly.  The empty check of the source is
realized through `getLast?`, which returns `none` exactly on the empty
trimmed string. -/
def parse_duration (s : String) : Except String Nat :=
  let cs := rustTrim s.data
  match cs.getLast? with
  | none => .error "Duration string is empty"
  | some lastChar =>
    let valueStr := cs.dropLast
    let (numStr, unitStr) :=
      if isAlphaChar lastChar then (valueStr, [lastChar]) else (cs, ['s'])
    match parseU64 numStr with
    | none => .error "Invalid number"
    | some value =>
      match unitMultiplier unitStr with
      | none => .error "Invalid time unit"
      | some mult => .ok ((value * mult) % 2 ^ 64)

/-! ## Cached responses (`cache.rs`) -/

/-- Embedding of `cache.rs::CachedResponse`: an opaque body plus the monotonic
instant at which the body was stored. -/
structure CachedResponse where
  body : String
  cached_at : Nat
deriving DecidableEq

/-- Embedding of `CachedResponse::is_stale`: `cached_at.elapsed() > ttl`,
with `elapsed = now - cached_at`. -/
def CachedResponse.is_stale (c : CachedResponse) (ttl now : Nat) : Bool :=
  decide (ttl < now - c.cached_at)

/-- Embedding of `CachedResponse::is_servable_if_error`:
`cached_at.elapsed() < ttl + stale_if_error` (strict). -/
def CachedResponse.is_servable_if_error
    (c : CachedResponse) (ttl stale_if_error now : Nat) : Bool :=
  decide (now - c.cached_at < ttl + stale_if_error)

/-! ## Configuration and policy resolution (`config.rs`) -/

/-- Embedding of `config.rs::CacheRule`. -/
structure CacheRule where
  ttl : Option Nat
  stale : Option Nat
  bypass : Option Bool
deriving DecidableEq

/-- Embedding of `config.rs::CacheConfig` after `compile_rules` ran: each
compiled glob set is represented by its match predicate on paths (the glob
engine is the external `globset` crate).  The order of `compiled_rules` is
the iteration order of the `HashMap<String, CacheRule>` holding the parsed
rules, which the source does not constrain. -/
structure CacheConfig where
  default_ttl : Nat
  stale_if_error : Nat
  compiled_rules : Option (List ((String → Bool) × CacheRule))

/-- Embedding of `CacheConfig::compile_rules` over a given iteration order of
the rules map: each pattern is compiled to its matcher, order preserved from
the iteration. -/
def compile_rules (matcher : String → String → Bool)
    (rulesIter : List (String × CacheRule)) : List ((String → Bool) × CacheRule) :=
  rulesIter.map (fun pr => (matcher pr.1, pr.2))

/-- First-match scan of a compiled rule list, as the loop in
`CacheConfig::find_rule`. -/
def findRuleList : List ((String → Bool) × CacheRule) → String → Option CacheRule
  | [], _ => none
  | (g, r) :: rest, path => if g path then some r else findRuleList rest path

/-- Embedding of `CacheConfig::find_rule`. -/
def CacheConfig.find_rule (cfg : CacheConfig) (path : String) : Option CacheRule :=
  match cfg.compiled_rules with
  | some compiled => findRuleList compiled path
  | none => none

/-- Effective TTL for a path: `rule.and_then(|r| r.ttl).unwrap_or(default_ttl)`
as computed in `handlers.rs::call_upstream`. -/
def effective_ttl (cfg : CacheConfig) (path : String) : Nat :=
  ((cfg.find_rule path).bind fun r => r.ttl).getD cfg.default_ttl

/-- Effective stale-if-error span for a path:
`rule.and_then(|r| r.stale).unwrap_or(stale_if_error)` as computed in
`handlers.rs::call_upstream`. -/
def effective_stale_if_error (cfg : CacheConfig) (path : String) : Nat :=
  ((cfg.find_rule path).bind fun r => r.stale).getD cfg.stale_if_error

/-- The bypass test of `call_upstream`:
`if let Some(rule) = rule { rule.bypass == Some(true) }`. -/
def ruleIsBypass : Option CacheRule → Bool
  | some r => r.bypass == some true
  | none => false

/-! ## Storage (`storage.rs::MemoryStorage`) -/

/-- In-memory storage: the `HashMap<String, CachedResponse>` of
`MemoryStorage`, modelled as an association list with at most one binding
per key (maintained by `storageSet`). -/
abbrev Storage := List (String × CachedResponse)

/-- Embedding of `MemoryStorage::get`. -/
def storageGet (st : Storage) (key : String) : Option CachedResponse :=
  match st.find? (fun kv => kv.1 == key) with
  | some kv => some kv.2
  | none => none

/-- Embedding of `MemoryStorage::set`: unconditional overwrite. -/
def storageSet (st : Storage) (key : String) (v : CachedResponse) : Storage :=
  (key, v) :: st.filter (fun kv => kv.1 != key)

/-- Embedding of `MemoryStorage::size`. -/
def storageSize (st : Storage) : Nat := st.length

/-! ## Requests, upstream client and responses (`handlers.rs`) -/

/-- The parts of the inbound `hyper::Uri` the handler reads: the path (used
for rule matching) and the optional path-and-query (used for the cache key
and the upstream request target). -/
structure InUri where
  path : String
  pathAndQuery : Option String
deriving DecidableEq

/-- Embedding of `handlers.rs::generate_cache_key`. -/
def generate_cache_key (uri : InUri) : String :=
  uri.pathAndQuery.getD "/"

/-- The parts of the configured upstream base URL the handler reads after
`upstream_url.parse::<hyper::Uri>()`: optional scheme, host (checked
non-empty at the `expect`), optional port. -/
structure BaseUrl where
  scheme : Option String
  host : String
  port : Option Nat

/-- The authority component of the base URL, host plus optional port, as
`hyper::Uri::authority` renders it for a URL of this shape. -/
def BaseUrl.authority (u : BaseUrl) : String :=
  u.host ++ (match u.port with
    | some p => ":" ++ toString p
    | none => "")

/-- The request handed to `send_request`: built by `Request::builder()` whose
default method is GET, with the URI string formatted from scheme, authority
and the inbound path-and-query, and a `Host` header set to the `host`
variable (the host without the port). -/
structure UpstreamRequest where
  method : String
  uri : String
  hostHeader : String
deriving DecidableEq

/-- Construction of the upstream request in `call_upstream` and
`forward_to_upstream` (both build the identical request). -/
def buildUpstreamRequest (base : BaseUrl) (pathAndQuery : Option String) :
    UpstreamRequest :=
  let pq := pathAndQuery.getD "/"
  { method := "GET"
  , uri := (base.scheme.getD "http") ++ "://" ++ base.authority ++ pq
  , hostHeader := base.host }

/-- Outcome of one upstream call, naming the four points at which the
upstream interaction of the handler can fail, plus success carrying the
status and body the origin answered with.  `connectError` is a failure of
`TcpStream::connect`, `handshakeError` of `http1::handshake`, `sendError`
of `sender.send_request`, `bodyError` of `res.collect()`. -/
inductive UpstreamOutcome where
  | connectError
  | handshakeError
  | sendError
  | bodyError
  | success (status : Nat) (body : String)
deriving DecidableEq

/-- A downstream response as the handler builds it: `Response::builder()`
leaves the status at its default 200 in every non-`/metrics` path of
`handlers.rs`; the `X-Cache` header and the optional `X-Cache-Reason`
header are recorded. -/
structure RelayResponse where
  status : Nat
  body : String
  xCache : String
  xCacheReason : Option String
deriving DecidableEq

/-- The fresh-hit response of `call_upstream`. -/
def hitResponse (c : CachedResponse) : RelayResponse :=
  ⟨200, c.body, "HIT", none⟩

/-- The miss response of `call_upstream`. -/
def missResponse (b : String) : RelayResponse :=
  ⟨200, b, "MISS", none⟩

/-- The stale-on-error response of `call_upstream`. -/
def staleResponse (c : CachedResponse) : RelayResponse :=
  ⟨200, c.body, "STALE", some "upstream-error"⟩

/-- The bypass response of `forward_to_upstream`. -/
def bypassResponse (b : String) : RelayResponse :=
  ⟨200, b, "BYPASS", none⟩

/-! ## Metrics (`metrics.rs`) -/

/-- The four counters of `metrics.rs` the handler increments. -/
structure Metrics where
  cache_hits : Nat
  cache_misses : Nat
  cache_stale_served : Nat
  upstream_errors : Nat
deriving DecidableEq

/-- Counter increments are guarded by `*prometheus_enabled` in the source. -/
def incHits (enabled : Bool) (m : Metrics) : Metrics :=
  if enabled then { m with cache_hits := m.cache_hits + 1 } else m

def incMisses (enabled : Bool) (m : Metrics) : Metrics :=
  if enabled then { m with cache_misses := m.cache_misses + 1 } else m

def incStale (enabled : Bool) (m : Metrics) : Metrics :=
  if enabled then { m with cache_stale_served := m.cache_stale_served + 1 } else m

def incErrors (enabled : Bool) (m : Metrics) : Metrics :=
  if enabled then { m with upstream_errors := m.upstream_errors + 1 } else m

/-! ## The request handler (`handlers.rs::call_upstream`) -/

/-- Result of one handler invocation.  `response = none` models the handler
returning `Err` to the server.  `gets`, `sets` count the `Storage::get` and
`Storage::set` invocations made during the request, `connects` the TCP
connection attempts to the upstream, and `upstreamReqs` lists the requests
actually handed to `send_request`. -/
structure HandlerResult where
  response : Option RelayResponse
  cache : Storage
  metrics : Metrics
  gets : Nat
  sets : Nat
  connects : Nat
  upstreamReqs : List UpstreamRequest
deriving DecidableEq

/-- Embedding of `handlers.rs::forward_to_upstream` (the bypass path): no
storage access, no counter updates; every failure propagates with `?`; on
success the body is returned with status 200 and `X-Cache: BYPASS`. -/
def forward_to_upstream (base : BaseUrl) (uri : InUri)
    (outcome : UpstreamOutcome) (cache : Storage) (m : Metrics) : HandlerResult :=
  let q := buildUpstreamRequest base uri.pathAndQuery
  match outcome with
  | .connectError => ⟨none, cache, m, 0, 0, 1, []⟩
  | .handshakeError => ⟨none, cache, m, 0, 0, 1, []⟩
  | .sendError => ⟨none, cache, m, 0, 0, 1, [q]⟩
  | .bodyError => ⟨none, cache, m, 0, 0, 1, [q]⟩
  | .success _ b => ⟨some (bypassResponse b), cache, m, 0, 0, 1, [q]⟩

/-- The portion of `call_upstream` after the fresh-hit check failed (no entry,
or the entry is stale): count a miss, contact the upstream.  A
`TcpStream::connect` or `handshake` failure propagates with `?` before a
request is built; a `send_request` failure counts an upstream error and
re-reads the cache for stale-on-error; a `res.collect()` failure propagates
with `?`; success stores the body at the current instant and answers
`X-Cache: MISS` with status 200. -/
def call_upstream_miss (cfg : CacheConfig) (enabled : Bool) (base : BaseUrl)
    (outcome : UpstreamOutcome) (uri : InUri) (now : Nat)
    (cache : Storage) (m : Metrics) : HandlerResult :=
  let cache_key := generate_cache_key uri
  let ttl := effective_ttl cfg uri.path
  let m1 := incMisses enabled m
  let q := buildUpstreamRequest base uri.pathAndQuery
  match outcome with
  | .connectError => ⟨none, cache, m1, 1, 0, 1, []⟩
  | .handshakeError => ⟨none, cache, m1, 1, 0, 1, []⟩
  | .sendError =>
    let m2 := incErrors enabled m1
    let sie := effective_stale_if_error cfg uri.path
    match storageGet cache cache_key with
    | some c =>
      if c.is_servable_if_error ttl sie now then
        ⟨some (staleResponse c), cache, incStale enabled m2, 2, 0, 1, [q]⟩
      else
        ⟨none, cache, m2, 2, 0, 1, [q]⟩
    | none => ⟨none, cache, m2, 2, 0, 1, [q]⟩
  | .bodyError => ⟨none, cache, m1, 1, 0, 1, [q]⟩
  | .success _ b =>
    ⟨some (missResponse b), storageSet cache cache_key ⟨b, now⟩, m1, 1, 1, 1, [q]⟩

/-- Embedding of `handlers.rs::call_upstream`, sequential semantics of one
request at monotonic instant `now` with the given upstream outcome. -/
def call_upstream (cfg : CacheConfig) (enabled : Bool) (base : BaseUrl)
    (outcome : UpstreamOutcome) (uri : InUri) (now : Nat)
    (cache : Storage) (m : Metrics) : HandlerResult :=
  let cache_key := generate_cache_key uri
  let rule := cfg.find_rule uri.path
  if ruleIsBypass rule then
    forward_to_upstream base uri outcome cache m
  else
    let ttl := effective_ttl cfg uri.path
    match storageGet cache cache_key with
    | some c =>
      if c.is_stale ttl now then
        call_upstream_miss cfg enabled base outcome uri now cache m
      else
        ⟨some (hitResponse c), cache, incHits enabled m, 1, 0, 0, []⟩
    | none => call_upstream_miss cfg enabled base outcome uri now cache m

/-! ## Request traces -/

/-- One inbound request together with its instant and the outcome the
upstream would produce if contacted. -/
structure RequestEvent where
  uri : InUri
  outcome : UpstreamOutcome
  now : Nat

/-- The state threaded between requests: the storage map and the counters. -/
structure RelayState where
  cache : Storage
  metrics : Metrics

/-- Run one request through the handler, keeping the new state. -/
def step (cfg : CacheConfig) (enabled : Bool) (base : BaseUrl)
    (st : RelayState) (e : RequestEvent) : RelayState :=
  let r := call_upstream cfg enabled base e.outcome e.uri e.now st.cache st.metrics
  ⟨r.cache, r.metrics⟩

/-- Run a list of requests in order. -/
def runRequests (cfg : CacheConfig) (enabled : Bool) (base : BaseUrl)
    (st : RelayState) : List RequestEvent → RelayState
  | [] => st
  | e :: rest => runRequests cfg enabled base (step cfg enabled base st e) rest

/-! ## Concrete instances used by the witnesses and counterexamples -/

/-- Configuration with the documented defaults (ttl 300 s, stale 86400 s)
and no rules. -/
def cfgDefault : CacheConfig := ⟨300, 86400, none⟩

/-- Configuration with ttl 10 and stale-if-error 5, small enough to exercise
the stale boundary. -/
def cfgTtl10Stale5 : CacheConfig := ⟨10, 5, none⟩

/-- Configuration with ttl 10 and stale-if-error 100. -/
def cfgTtl10Stale100 : CacheConfig := ⟨10, 100, none⟩

/-- Upstream base URL without an explicit port. -/
def baseHttp : BaseUrl := ⟨some "http", "example.com", none⟩

/-- Upstream base URL with an explicit port. -/
def basePort : BaseUrl := ⟨some "http", "example.com", some 8080⟩

/-- Fresh counters. -/
def metrics0 : Metrics := ⟨0, 0, 0, 0⟩

def uriA : InUri := ⟨"/a", some "/a"⟩

def uriB : InUri := ⟨"/b", some "/b"⟩

def uriAdmin : InUri := ⟨"/admin/x", some "/admin/x"⟩

def entryX : CachedResponse := ⟨"X", 0⟩

def entryY : CachedResponse := ⟨"Y", 0⟩

def cacheX : Storage := [("/a", entryX)]

def cacheY : Storage := [("/a", entryY)]

def ruleTtl1 : CacheRule := ⟨some 1, none, none⟩

def ruleBypassTrue : CacheRule := ⟨none, none, some true⟩

/-- Concrete glob semantics for the two patterns of the order-sensitivity
theorem, matching what the `globset` crate decides on these inputs: the
pattern matches its own literal text, and the pattern `/a/*` also matches
the path `/a/b`. -/
def globAB : String → String → Bool :=
  fun pat path => pat == path || (pat == "/a/*" && path == "/a/b")

/-- Concrete compiled matcher for the exact pattern `/admin/x`. -/
def globAdmin : String → Bool := fun p => p == "/admin/x"

/-- Configuration whose single rule is a bypass rule for `/admin/x`. -/
def cfgBypass : CacheConfig := ⟨300, 86400, some [(globAdmin, ruleBypassTrue)]⟩

/-- The request trace of scenario S5: a miss on `/a`, two hits on `/a`, a
miss on `/b`, then a request for `/a` at instant 400 (past the ttl of 300,
inside the stale window) whose upstream call fails at the send step. -/
def s5Events : List RequestEvent :=
  [⟨uriA, .success 200 "A", 0⟩, ⟨uriA, .success 200 "A", 1⟩, ⟨uriA, .success 200 "A", 2⟩,
   ⟨uriB, .success 200 "B", 3⟩, ⟨uriA, .sendError, 400⟩]

/-- Decimal digits of 2 ^ 64 = 18446744073709551616, the smallest value the
u64 numeric parse rejects as out of range. -/
def digits2to64 : List Char :=
  ['1', '8', '4', '4', '6', '7', '4', '4', '0', '7',
   '3', '7', '0', '9', '5', '5', '1', '6', '1', '6']

/-! ## Facts about the character classes and the duration parser -/

theorem isAlphaChar_eq_false_of_digit {c : Char} (h : isAsciiDigit c = true) :
    isAlphaChar c = false := by
  simp only [isAsciiDigit, decide_eq_true_eq] at h
  simp only [isAlphaChar, decide_eq_false_iff_not]
  omega

theorem isSpaceChar_eq_false_of_digit {c : Char} (h : isAsciiDigit c = true) :
    isSpaceChar c = false := by
  simp only [isAsciiDigit, decide_eq_true_eq] at h
  simp only [isSpaceChar, decide_eq_false_iff_not]
  omega

theorem isSpaceChar_eq_false_of_alpha {c : Char} (h : isAlphaChar c = true) :
    isSpaceChar c = false := by
  simp only [isAlphaChar, decide_eq_true_eq] at h
  simp only [isSpaceChar, decide_eq_false_iff_not]
  omega

theorem dropWhile_eq_self_of_none {p : Char → Bool} :
    ∀ {cs : List Char}, (∀ c ∈ cs, p c = false) → cs.dropWhile p = cs
  | [], _ => rfl
  | c :: t, h => by
    have hc : p c = false := h c (List.mem_cons_self c t)
    simp [List.dropWhile, hc]

theorem rustTrim_eq_self {cs : List Char} (h : ∀ c ∈ cs, isSpaceChar c = false) :
    rustTrim cs = cs := by
  unfold rustTrim
  rw [dropWhile_eq_self_of_none h]
  rw [dropWhile_eq_self_of_none (fun c hc => h c (List.mem_reverse.mp hc))]
  exact List.reverse_reverse cs

theorem parseU64_of_digits {ds : List Char} (hne : ds ≠ [])
    (hd : ds.all isAsciiDigit = true) (hlt : natOfDigits ds < 2 ^ 64) :
    parseU64 ds = some (natOfDigits ds) := by
  have hstrip : stripPlus ds = ds := by
    cases ds with
    | nil => rfl
    | cons c t =>
      have hc : isAsciiDigit c = true := by
        simp only [List.all_cons, Bool.and_eq_true] at hd
        exact hd.1
      have hcp : ¬ (c = '+') := by
        intro hh
        subst hh
        simp [isAsciiDigit] at hc
      simp [stripPlus, hcp]
  unfold parseU64
  rw [hstrip]
  rw [if_pos ⟨hne, hd⟩, if_pos hlt]

theorem unitMultiplier_cases {u : Char} {mult : Nat}
    (h : unitMultiplier [u] = some mult) :
    (u = 's' ∧ mult = 1) ∨ (u = 'm' ∧ mult = 60)
    ∨ (u = 'h' ∧ mult = 3600) ∨ (u = 'd' ∧ mult = 86400) := by
  unfold unitMultiplier at h
  split_ifs at h with h1 h2 h3 h4 <;> simp_all

theorem parseU64_none_of_big {ds : List Char} (hne : ds ≠ [])
    (hd : ds.all isAsciiDigit = true) (hge : 2 ^ 64 ≤ natOfDigits ds) :
    parseU64 ds = none := by
  have hstrip : stripPlus ds = ds := by
    cases ds with
    | nil => rfl
    | cons c t =>
      have hc : isAsciiDigit c = true := by
        simp only [List.all_cons, Bool.and_eq_true] at hd
        exact hd.1
      have hcp : ¬ (c = '+') := by
        intro hh
        subst hh
        simp [isAsciiDigit] at hc
      simp [stripPlus, hcp]
  unfold parseU64
  rw [hstrip]
  rw [if_pos ⟨hne, hd⟩, if_neg (Nat.not_lt.mpr hge)]

theorem parseU64_none_of_junk {ds : List Char} {e : Char} (hne : ds ≠ [])
    (hd : ds.all isAsciiDigit = true) (he : isAsciiDigit e = false) :
    parseU64 (ds ++ [e]) = none := by
  have hstrip : stripPlus (ds ++ [e]) = ds ++ [e] := by
    cases ds with
    | nil => exact absurd rfl hne
    | cons c t =>
      have hc : isAsciiDigit c = true := by
        simp only [List.all_cons, Bool.and_eq_true] at hd
        exact hd.1
      have hcp : ¬ (c = '+') := by
        intro hh
        subst hh
        simp [isAsciiDigit] at hc
      simp [stripPlus, hcp]
  unfold parseU64
  rw [hstrip]
  rw [if_neg]
  intro hcond
  have hall := hcond.2
  rw [List.all_append] at hall
  simp only [List.all_cons, List.all_nil, Bool.and_eq_true] at hall
  rw [he] at hall
  exact Bool.false_ne_true hall.2.1

/-- Claim C7 (amended): for a non-empty run of decimal digits `ds` whose
value fits in `u64`, `parse_duration` maps `ds` followed by a recognized
unit letter to the digit value times the unit multiplier — provided that
product also fits in 64 bits (the source multiplies in `u64`, wrapping
modulo `2 ^ 64` otherwise) — and maps bare `ds` to the value in seconds;
it fails on the empty string, on an alphabetic but unrecognized unit
letter, on a non-numeric prefix (digits followed by a non-digit,
non-alphabetic character, with or without a unit letter after it), and on
a digit run `es` whose value is at least `2 ^ 64`, which the u64 numeric
parse rejects (with or without a unit letter). -/
theorem parse_duration_behavior
    (ds : List Char) (u : Char) (mult : Nat) (b : Char) (e : Char) (es : List Char)
    (hne : ds ≠ []) (hd : ds.all isAsciiDigit = true)
    (hu : unitMultiplier [u] = some mult)
    (hv : natOfDigits ds < 2 ^ 64)
    (hp : natOfDigits ds * mult < 2 ^ 64)
    (hb1 : isAlphaChar b = true) (hb2 : unitMultiplier [b] = none)
    (he1 : isAsciiDigit e = false) (he2 : isAlphaChar e = false)
    (he3 : isSpaceChar e = false)
    (hesne : es ≠ []) (hesd : es.all isAsciiDigit = true)
    (hbig : 2 ^ 64 ≤ natOfDigits es) :
    parse_duration (String.mk (ds ++ [u])) = .ok (natOfDigits ds * mult)
    ∧ parse_duration (String.mk ds) = .ok (natOfDigits ds)
    ∧ parse_duration "" = .error "Duration string is empty"
    ∧ parse_duration (String.mk (ds ++ [b])) = .error "Invalid time unit"
    ∧ parse_duration (String.mk (ds ++ [e])) = .error "Invalid number"
    ∧ parse_duration (String.mk (ds ++ [e] ++ [u])) = .error "Invalid number"
    ∧ parse_duration (String.mk es) = .error "Invalid number"
    ∧ parse_duration (String.mk (es ++ [u])) = .error "Invalid number" := by
  have hdig : ∀ c ∈ ds, isAsciiDigit c = true := List.all_eq_true.mp hd
  have hns : ∀ c ∈ ds, isSpaceChar c = false :=
    fun c hc => isSpaceChar_eq_false_of_digit (hdig c hc)
  have hdigE : ∀ c ∈ es, isAsciiDigit c = true := List.all_eq_true.mp hesd
  have hnsE : ∀ c ∈ es, isSpaceChar c = false :=
    fun c hc => isSpaceChar_eq_false_of_digit (hdigE c hc)
  have ualpha : isAlphaChar u = true := by
    rcases unitMultiplier_cases hu with ⟨h, _⟩ | ⟨h, _⟩ | ⟨h, _⟩ | ⟨h, _⟩ <;>
      subst h <;> decide
  have huns : isSpaceChar u = false := isSpaceChar_eq_false_of_alpha ualpha
  have hbns : isSpaceChar b = false := isSpaceChar_eq_false_of_alpha hb1
  have hnsDE : ∀ c ∈ ds ++ [e], isSpaceChar c = false := by
    intro c hc
    rcases List.mem_append.mp hc with h | h
    · exact hns c h
    · rw [List.mem_singleton.mp h]; exact he3
  have trimU : rustTrim (String.mk (ds ++ [u])).data = ds ++ [u] := by
    apply rustTrim_eq_self
    intro c hc
    rcases List.mem_append.mp hc with h | h
    · exact hns c h
    · rw [List.mem_singleton.mp h]; exact huns
  have trimB : rustTrim (String.mk (ds ++ [b])).data = ds ++ [b] := by
    apply rustTrim_eq_self
    intro c hc
    rcases List.mem_append.mp hc with h | h
    · exact hns c h
    · rw [List.mem_singleton.mp h]; exact hbns
  have trimD : rustTrim (String.mk ds).data = ds := rustTrim_eq_self hns
  have trimE : rustTrim (String.mk (ds ++ [e])).data = ds ++ [e] :=
    rustTrim_eq_self hnsDE
  have trimEU : rustTrim (String.mk (ds ++ [e] ++ [u])).data = ds ++ [e] ++ [u] := by
    apply rustTrim_eq_self
    intro c hc
    rcases List.mem_append.mp hc with h | h
    · exact hnsDE c h
    · rw [List.mem_singleton.mp h]; exact huns
  have trimES : rustTrim (String.mk es).data = es := rustTrim_eq_self hnsE
  have trimESU : rustTrim (String.mk (es ++ [u])).data = es ++ [u] := by
    apply rustTrim_eq_self
    intro c hc
    rcases List.mem_append.mp hc with h | h
    · exact hnsE c h
    · rw [List.mem_singleton.mp h]; exact huns
  have hpu : parseU64 ds = some (natOfDigits ds) := parseU64_of_digits hne hd hv
  have hjunk : parseU64 (ds ++ [e]) = none := parseU64_none_of_junk hne hd he1
  have hbigE : parseU64 es = none := parseU64_none_of_big hesne hesd hbig
  refine ⟨?_, ?_, ?_, ?_, ?_, ?_, ?_, ?_⟩
  · unfold parse_duration
    simp only [trimU, List.getLast?_concat, List.dropLast_concat, ualpha, if_true, hpu, hu]
    rw [Nat.mod_eq_of_lt hp]
  · unfold parse_duration
    have hlast := List.getLast?_eq_getLast ds hne
    have hmem := List.getLast_mem hne
    have hlastdig : isAsciiDigit (ds.getLast hne) = true := hdig _ hmem
    have hlastalpha : isAlphaChar (ds.getLast hne) = false :=
      isAlphaChar_eq_false_of_digit hlastdig
    have h1 : unitMultiplier ['s'] = some 1 := by decide
    simp only [trimD, hlast, hlastalpha, Bool.false_eq_true, if_false, hpu, h1]
    rw [Nat.mul_one, Nat.mod_eq_of_lt hv]
  · rfl
  · unfold parse_duration
    simp only [trimB, List.getLast?_concat, List.dropLast_concat, hb1, if_true, hpu, hb2]
  · unfold parse_duration
    simp only [trimE, List.getLast?_concat, he2, Bool.false_eq_true, if_false, hjunk]
  · unfold parse_duration
    simp only [trimEU, List.getLast?_concat, List.dropLast_concat, ualpha, if_true, hjunk]
  · unfold parse_duration
    have hlastE := List.getLast?_eq_getLast es hesne
    have hmemE := List.getLast_mem hesne
    have hlastdigE : isAsciiDigit (es.getLast hesne) = true := hdigE _ hmemE
    have hlastalphaE : isAlphaChar (es.getLast hesne) = false :=
      isAlphaChar_eq_false_of_digit hlastdigE
    simp only [trimES, hlastE, hlastalphaE, Bool.false_eq_true, if_false, hbigE]
  · unfold parse_duration
    simp only [trimESU, List.getLast?_concat, List.dropLast_concat, ualpha, if_true, hbigE]

/-- Claim C7 counterexample: on `213503982334602d` the multiplication
`value * 86400` exceeds `2 ^ 64` and wraps, so the parser returns 61184
seconds instead of the mathematical product the claim promises. -/
theorem parse_duration_overflow_cex :
    parse_duration "213503982334602d" = .ok 61184
    ∧ (61184 : Nat) ≠ 213503982334602 * 86400 := ⟨rfl, by decide⟩

/-- Witness instantiating `parse_duration_behavior` at the string `42`
with unit `m`, the unrecognized unit letter `x`, the non-numeric character
`-`, and the out-of-range digit run of 2 ^ 64. -/
theorem parse_duration_behavior_witness :
    (['4', '2'] : List Char) ≠ []
    ∧ (['4', '2'] : List Char).all isAsciiDigit = true
    ∧ unitMultiplier ['m'] = some 60
    ∧ natOfDigits ['4', '2'] < 2 ^ 64
    ∧ natOfDigits ['4', '2'] * 60 < 2 ^ 64
    ∧ isAlphaChar 'x' = true
    ∧ unitMultiplier ['x'] = none
    ∧ isAsciiDigit '-' = false
    ∧ isAlphaChar '-' = false
    ∧ isSpaceChar '-' = false
    ∧ digits2to64 ≠ []
    ∧ digits2to64.all isAsciiDigit = true
    ∧ 2 ^ 64 ≤ natOfDigits digits2to64
    ∧ (parse_duration (String.mk (['4', '2'] ++ ['m'])) = .ok (natOfDigits ['4', '2'] * 60)
      ∧ parse_duration (String.mk ['4', '2']) = .ok (natOfDigits ['4', '2'])
      ∧ parse_duration "" = .error "Duration string is empty"
      ∧ parse_duration (String.mk (['4', '2'] ++ ['x'])) = .error "Invalid time unit"
      ∧ parse_duration (String.mk (['4', '2'] ++ ['-'])) = .error "Invalid number"
      ∧ parse_duration (String.mk (['4', '2'] ++ ['-'] ++ ['m'])) = .error "Invalid number"
      ∧ parse_duration (String.mk digits2to64) = .error "Invalid number"
      ∧ parse_duration (String.mk (digits2to64 ++ ['m'])) = .error "Invalid number") :=
  ⟨by decide, by decide, by decide, by decide, by decide, by decide, by decide,
    by decide, by decide, by decide, by decide, by decide, by decide,
    parse_duration_behavior ['4', '2'] 'm' 60 'x' '-' digits2to64
      (by decide) (by decide) (by decide) (by decide) (by decide) (by decide) (by decide)
      (by decide) (by decide) (by decide) (by decide) (by decide) (by decide)⟩

/-! ## Equation lemmas for the handler -/

theorem call_upstream_miss_connects (cfg : CacheConfig) (enabled : Bool)
    (base : BaseUrl) (outcome : UpstreamOutcome) (uri : InUri) (now : Nat)
    (cache : Storage) (m : Metrics) :
    (call_upstream_miss cfg enabled base outcome uri now cache m).connects = 1 := by
  cases outcome <;> try rfl
  show (call_upstream_miss cfg enabled base .sendError uri now cache m).connects = 1
  unfold call_upstream_miss
  cases hg : storageGet cache (generate_cache_key uri) with
  | none => simp [hg]
  | some c => simp only [hg]; split <;> rfl

theorem call_upstream_miss_connectError (cfg : CacheConfig) (enabled : Bool)
    (base : BaseUrl) (uri : InUri) (now : Nat) (cache : Storage) (m : Metrics) :
    call_upstream_miss cfg enabled base .connectError uri now cache m =
      ⟨none, cache, incMisses enabled m, 1, 0, 1, []⟩ := rfl

theorem call_upstream_miss_handshakeError (cfg : CacheConfig) (enabled : Bool)
    (base : BaseUrl) (uri : InUri) (now : Nat) (cache : Storage) (m : Metrics) :
    call_upstream_miss cfg enabled base .handshakeError uri now cache m =
      ⟨none, cache, incMisses enabled m, 1, 0, 1, []⟩ := rfl

theorem call_upstream_miss_bodyError (cfg : CacheConfig) (enabled : Bool)
    (base : BaseUrl) (uri : InUri) (now : Nat) (cache : Storage) (m : Metrics) :
    call_upstream_miss cfg enabled base .bodyError uri now cache m =
      ⟨none, cache, incMisses enabled m, 1, 0, 1,
        [buildUpstreamRequest base uri.pathAndQuery]⟩ := rfl

theorem call_upstream_miss_success (cfg : CacheConfig) (enabled : Bool)
    (base : BaseUrl) (uri : InUri) (now : Nat) (cache : Storage) (m : Metrics)
    (s : Nat) (b : String) :
    call_upstream_miss cfg enabled base (.success s b) uri now cache m =
      ⟨some (missResponse b), storageSet cache (generate_cache_key uri) ⟨b, now⟩,
        incMisses enabled m, 1, 1, 1,
        [buildUpstreamRequest base uri.pathAndQuery]⟩ := rfl

theorem call_upstream_miss_sendError (cfg : CacheConfig) (enabled : Bool)
    (base : BaseUrl) (uri : InUri) (now : Nat) (cache : Storage) (m : Metrics)
    (c : CachedResponse)
    (hget : storageGet cache (generate_cache_key uri) = some c) :
    call_upstream_miss cfg enabled base .sendError uri now cache m =
      (if c.is_servable_if_error (effective_ttl cfg uri.path)
          (effective_stale_if_error cfg uri.path) now then
        ⟨some (staleResponse c), cache,
          incStale enabled (incErrors enabled (incMisses enabled m)), 2, 0, 1,
          [buildUpstreamRequest base uri.pathAndQuery]⟩
      else
        ⟨none, cache, incErrors enabled (incMisses enabled m), 2, 0, 1,
          [buildUpstreamRequest base uri.pathAndQuery]⟩) := by
  unfold call_upstream_miss
  simp only [hget]

theorem call_upstream_miss_sendError_none (cfg : CacheConfig) (enabled : Bool)
    (base : BaseUrl) (uri : InUri) (now : Nat) (cache : Storage) (m : Metrics)
    (hget : storageGet cache (generate_cache_key uri) = none) :
    call_upstream_miss cfg enabled base .sendError uri now cache m =
      ⟨none, cache, incErrors enabled (incMisses enabled m), 2, 0, 1,
        [buildUpstreamRequest base uri.pathAndQuery]⟩ := by
  unfold call_upstream_miss
  simp only [hget]

theorem call_upstream_bypass (cfg : CacheConfig) (enabled : Bool) (base : BaseUrl)
    (outcome : UpstreamOutcome) (uri : InUri) (now : Nat)
    (cache : Storage) (m : Metrics)
    (hbyp : ruleIsBypass (cfg.find_rule uri.path) = true) :
    call_upstream cfg enabled base outcome uri now cache m =
      forward_to_upstream base uri outcome cache m := by
  simp only [call_upstream, hbyp, if_true]

theorem call_upstream_hit (cfg : CacheConfig) (enabled : Bool) (base : BaseUrl)
    (outcome : UpstreamOutcome) (uri : InUri) (now : Nat)
    (cache : Storage) (m : Metrics) (c : CachedResponse)
    (hbyp : ruleIsBypass (cfg.find_rule uri.path) = false)
    (hget : storageGet cache (generate_cache_key uri) = some c)
    (hfresh : now - c.cached_at ≤ effective_ttl cfg uri.path) :
    call_upstream cfg enabled base outcome uri now cache m =
      ⟨some (hitResponse c), cache, incHits enabled m, 1, 0, 0, []⟩ := by
  have hst : c.is_stale (effective_ttl cfg uri.path) now = false := by
    simp only [CachedResponse.is_stale, decide_eq_false_iff_not]
    omega
  simp only [call_upstream, hbyp, Bool.false_eq_true, if_false, hget, hst]

theorem call_upstream_stale_entry (cfg : CacheConfig) (enabled : Bool) (base : BaseUrl)
    (outcome : UpstreamOutcome) (uri : InUri) (now : Nat)
    (cache : Storage) (m : Metrics) (c : CachedResponse)
    (hbyp : ruleIsBypass (cfg.find_rule uri.path) = false)
    (hget : storageGet cache (generate_cache_key uri) = some c)
    (hstale : effective_ttl cfg uri.path < now - c.cached_at) :
    call_upstream cfg enabled base outcome uri now cache m =
      call_upstream_miss cfg enabled base outcome uri now cache m := by
  have hst : c.is_stale (effective_ttl cfg uri.path) now = true := by
    simp only [CachedResponse.is_stale, decide_eq_true_eq]
    omega
  simp only [call_upstream, hbyp, Bool.false_eq_true, if_false, hget, hst, if_true]

theorem call_upstream_no_entry (cfg : CacheConfig) (enabled : Bool) (base : BaseUrl)
    (outcome : UpstreamOutcome) (uri : InUri) (now : Nat)
    (cache : Storage) (m : Metrics)
    (hbyp : ruleIsBypass (cfg.find_rule uri.path) = false)
    (hget : storageGet cache (generate_cache_key uri) = none) :
    call_upstream cfg enabled base outcome uri now cache m =
      call_upstream_miss cfg enabled base outcome uri now cache m := by
  simp only [call_upstream, hbyp, Bool.false_eq_true, if_false, hget]

theorem ruleIsBypass_eq_false_of_ne_true {r : Option CacheRule}
    (h : ¬ ruleIsBypass r = true) : ruleIsBypass r = false := by
  cases hb : ruleIsBypass r
  · rfl
  · exact absurd hb h

/-! ## Claim theorems -/

/-- Claim C5: for a non-bypass request whose key holds a cached entry, the
handler answers the cached body with status 200 and `X-Cache: HIT`, making
no upstream connection and issuing no upstream request, exactly when the
age `now - cached_at` is at most the effective TTL (inclusive of age 0 and
of age equal to the TTL); equivalently, the entry is treated as stale and
the upstream is contacted exactly when the age exceeds the TTL. -/
theorem hit_iff_fresh (cfg : CacheConfig) (enabled : Bool) (base : BaseUrl)
    (outcome : UpstreamOutcome) (uri : InUri) (now : Nat)
    (cache : Storage) (m : Metrics) (c : CachedResponse)
    (hbyp : ruleIsBypass (cfg.find_rule uri.path) = false)
    (hget : storageGet cache (generate_cache_key uri) = some c) :
    ((call_upstream cfg enabled base outcome uri now cache m).response
        = some (hitResponse c)
      ∧ (call_upstream cfg enabled base outcome uri now cache m).connects = 0
      ∧ (call_upstream cfg enabled base outcome uri now cache m).upstreamReqs = [])
    ↔ now - c.cached_at ≤ effective_ttl cfg uri.path := by
  by_cases hfresh : now - c.cached_at ≤ effective_ttl cfg uri.path
  · rw [call_upstream_hit cfg enabled base outcome uri now cache m c hbyp hget hfresh]
    simp [hfresh]
  · have hstale : effective_ttl cfg uri.path < now - c.cached_at := Nat.not_le.mp hfresh
    rw [call_upstream_stale_entry cfg enabled base outcome uri now cache m c hbyp hget hstale]
    constructor
    · intro h
      have h1 := call_upstream_miss_connects cfg enabled base outcome uri now cache m
      rw [h.2.1] at h1
      exact absurd h1 (by decide)
    · intro h
      exact absurd h hfresh

/-- Witness for `hit_iff_fresh`: default configuration, entry for `/a`
stored at instant 0, request at instant 5 (fresh). -/
theorem hit_iff_fresh_witness :
    ruleIsBypass (cfgDefault.find_rule uriA.path) = false
    ∧ storageGet cacheX (generate_cache_key uriA) = some entryX
    ∧ (((call_upstream cfgDefault true baseHttp (.success 200 "X") uriA 5 cacheX
          metrics0).response = some (hitResponse entryX)
        ∧ (call_upstream cfgDefault true baseHttp (.success 200 "X") uriA 5 cacheX
            metrics0).connects = 0
        ∧ (call_upstream cfgDefault true baseHttp (.success 200 "X") uriA 5 cacheX
            metrics0).upstreamReqs = [])
       ↔ 5 - entryX.cached_at ≤ effective_ttl cfgDefault uriA.path) :=
  ⟨by decide, by decide,
    hit_iff_fresh cfgDefault true baseHttp (.success 200 "X") uriA 5 cacheX metrics0 entryX
      (by decide) (by decide)⟩

/-- Claim C6: when the first matching rule carries `bypass = true`, the
handler invokes neither `Storage::get` nor `Storage::set`, leaves the cache
untouched, and the response — produced exactly on upstream success — carries
`X-Cache: BYPASS`. -/
theorem bypass_never_touches_cache (cfg : CacheConfig) (enabled : Bool)
    (base : BaseUrl) (outcome : UpstreamOutcome) (uri : InUri) (now : Nat)
    (cache : Storage) (m : Metrics)
    (hbyp : ruleIsBypass (cfg.find_rule uri.path) = true) :
    (call_upstream cfg enabled base outcome uri now cache m).gets = 0
    ∧ (call_upstream cfg enabled base outcome uri now cache m).sets = 0
    ∧ (call_upstream cfg enabled base outcome uri now cache m).cache = cache
    ∧ (call_upstream cfg enabled base outcome uri now cache m).response =
        (match outcome with
         | .success _ b => some (bypassResponse b)
         | _ => none) := by
  rw [call_upstream_bypass cfg enabled base outcome uri now cache m hbyp]
  cases outcome <;> exact ⟨rfl, rfl, rfl, rfl⟩

/-- Witness for `bypass_never_touches_cache`: a bypass rule for `/admin/x`
with a populated cache and a successful upstream call. -/
theorem bypass_never_touches_cache_witness :
    ruleIsBypass (cfgBypass.find_rule uriAdmin.path) = true
    ∧ ((call_upstream cfgBypass true baseHttp (.success 200 "Z") uriAdmin 0 cacheX
          metrics0).gets = 0
      ∧ (call_upstream cfgBypass true baseHttp (.success 200 "Z") uriAdmin 0 cacheX
          metrics0).sets = 0
      ∧ (call_upstream cfgBypass true baseHttp (.success 200 "Z") uriAdmin 0 cacheX
          metrics0).cache = cacheX
      ∧ (call_upstream cfgBypass true baseHttp (.success 200 "Z") uriAdmin 0 cacheX
          metrics0).response = some (bypassResponse "Z")) :=
  ⟨by decide,
    bypass_never_touches_cache cfgBypass true baseHttp (.success 200 "Z") uriAdmin 0 cacheX
      metrics0 (by decide)⟩

/-- Claim C4 (amended): with a cached entry present and the upstream failing
at the send step, the entry is served as `X-Cache: STALE` exactly when
`ttl < age < ttl + stale_if_error` — the upper bound is strict, because
`is_servable_if_error` compares with `<`; in particular when the entry age
is at least `ttl + stale_if_error` (so also at exactly `ttl +
stale_if_error`) the handler surfaces the error instead. -/
theorem stale_window_strict (cfg : CacheConfig) (enabled : Bool) (base : BaseUrl)
    (uri : InUri) (now : Nat) (cache : Storage) (m : Metrics) (c : CachedResponse)
    (hbyp : ruleIsBypass (cfg.find_rule uri.path) = false)
    (hget : storageGet cache (generate_cache_key uri) = some c) :
    ((call_upstream cfg enabled base .sendError uri now cache m).response
        = some (staleResponse c)
      ↔ (effective_ttl cfg uri.path < now - c.cached_at
          ∧ now - c.cached_at
              < effective_ttl cfg uri.path + effective_stale_if_error cfg uri.path))
    ∧ (effective_ttl cfg uri.path < now - c.cached_at
        → effective_ttl cfg uri.path + effective_stale_if_error cfg uri.path
            ≤ now - c.cached_at
        → (call_upstream cfg enabled base .sendError uri now cache m).response = none) := by
  by_cases hstale : effective_ttl cfg uri.path < now - c.cached_at
  · rw [call_upstream_stale_entry cfg enabled base .sendError uri now cache m c hbyp hget hstale,
        call_upstream_miss_sendError cfg enabled base uri now cache m c hget]
    by_cases hsv : now - c.cached_at
        < effective_ttl cfg uri.path + effective_stale_if_error cfg uri.path
    · have h1 : c.is_servable_if_error (effective_ttl cfg uri.path)
          (effective_stale_if_error cfg uri.path) now = true := by
        simp only [CachedResponse.is_servable_if_error, decide_eq_true_eq]
        omega
      simp only [h1, if_true]
      constructor
      · simp [hstale, hsv]
      · intro _ h2
        omega
    · have h1 : c.is_servable_if_error (effective_ttl cfg uri.path)
          (effective_stale_if_error cfg uri.path) now = false := by
        simp only [CachedResponse.is_servable_if_error, decide_eq_false_iff_not]
        omega
      simp only [h1, Bool.false_eq_true, if_false]
      simp [hsv]
  · have hfresh : now - c.cached_at ≤ effective_ttl cfg uri.path := Nat.not_lt.mp hstale
    rw [call_upstream_hit cfg enabled base .sendError uri now cache m c hbyp hget hfresh]
    refine ⟨?_, fun h _ => absurd h hstale⟩
    constructor
    · intro h
      simp [hitResponse, staleResponse] at h
    · intro h
      exact absurd h.1 hstale

/-- Claim C4 counterexample: ttl 10, stale-if-error 5, entry stored at
instant 0, request at instant 15 — the age equals exactly
`ttl + stale_if_error`, and contrary to the claim the entry is not served:
the handler surfaces the error. -/
theorem stale_boundary_not_served_cex :
    (call_upstream cfgTtl10Stale5 true baseHttp .sendError uriA 15 cacheY metrics0).response
      = none := by decide

/-- Witness for `stale_window_strict`: ttl 10, stale-if-error 100, entry
age 15 — inside the window, so the iff is realized on its positive side. -/
theorem stale_window_strict_witness :
    ruleIsBypass (cfgTtl10Stale100.find_rule uriA.path) = false
    ∧ storageGet cacheY (generate_cache_key uriA) = some entryY
    ∧ (((call_upstream cfgTtl10Stale100 true baseHttp .sendError uriA 15 cacheY
          metrics0).response = some (staleResponse entryY)
        ↔ (effective_ttl cfgTtl10Stale100 uriA.path < 15 - entryY.cached_at
           ∧ 15 - entryY.cached_at < effective_ttl cfgTtl10Stale100 uriA.path
               + effective_stale_if_error cfgTtl10Stale100 uriA.path))
       ∧ (effective_ttl cfgTtl10Stale100 uriA.path < 15 - entryY.cached_at
          → effective_ttl cfgTtl10Stale100 uriA.path
              + effective_stale_if_error cfgTtl10Stale100 uriA.path ≤ 15 - entryY.cached_at
          → (call_upstream cfgTtl10Stale100 true baseHttp .sendError uriA 15 cacheY
              metrics0).response = none)) :=
  ⟨by decide, by decide,
    stale_window_strict cfgTtl10Stale100 true baseHttp uriA 15 cacheY metrics0 entryY
      (by decide) (by decide)⟩

/-- Claim C1 (amended): with a stale entry inside the servable window, only
a failure of `send_request` is recovered by serving the cached body with
`X-Cache: STALE` and `X-Cache-Reason: upstream-error`; a TCP connect
failure, a handshake failure, or a body-read failure propagates with `?`
and surfaces the error to the client even though a servable entry exists. -/
theorem stale_recovery_only_on_send_failure (cfg : CacheConfig) (enabled : Bool)
    (base : BaseUrl) (uri : InUri) (now : Nat) (cache : Storage) (m : Metrics)
    (c : CachedResponse)
    (hbyp : ruleIsBypass (cfg.find_rule uri.path) = false)
    (hget : storageGet cache (generate_cache_key uri) = some c)
    (hstale : effective_ttl cfg uri.path < now - c.cached_at)
    (hserv : now - c.cached_at
        < effective_ttl cfg uri.path + effective_stale_if_error cfg uri.path) :
    (call_upstream cfg enabled base .sendError uri now cache m).response
        = some (staleResponse c)
    ∧ (call_upstream cfg enabled base .connectError uri now cache m).response = none
    ∧ (call_upstream cfg enabled base .handshakeError uri now cache m).response = none
    ∧ (call_upstream cfg enabled base .bodyError uri now cache m).response = none := by
  have hsv : c.is_servable_if_error (effective_ttl cfg uri.path)
      (effective_stale_if_error cfg uri.path) now = true := by
    simp only [CachedResponse.is_servable_if_error, decide_eq_true_eq]
    omega
  refine ⟨?_, ?_, ?_, ?_⟩
  · rw [call_upstream_stale_entry cfg enabled base .sendError uri now cache m c hbyp hget hstale,
        call_upstream_miss_sendError cfg enabled base uri now cache m c hget]
    simp only [hsv, if_true]
  · rw [call_upstream_stale_entry cfg enabled base .connectError uri now cache m c hbyp hget
        hstale, call_upstream_miss_connectError]
  · rw [call_upstream_stale_entry cfg enabled base .handshakeError uri now cache m c hbyp hget
        hstale, call_upstream_miss_handshakeError]
  · rw [call_upstream_stale_entry cfg enabled base .bodyError uri now cache m c hbyp hget
        hstale, call_upstream_miss_bodyError]

/-- Claim C1 counterexample: a servable stale entry exists (ttl 10,
stale-if-error 100, age 15) but a TCP connect failure is not recovered:
the handler surfaces the error instead of serving the entry. -/
theorem connect_error_not_recovered_cex :
    (call_upstream cfgTtl10Stale100 true baseHttp .connectError uriA 15 cacheY metrics0).response
      = none := by decide

/-- Witness for `stale_recovery_only_on_send_failure` at ttl 10,
stale-if-error 100, entry age 15. -/
theorem stale_recovery_only_on_send_failure_witness :
    ruleIsBypass (cfgTtl10Stale100.find_rule uriA.path) = false
    ∧ storageGet cacheY (generate_cache_key uriA) = some entryY
    ∧ effective_ttl cfgTtl10Stale100 uriA.path < 15 - entryY.cached_at
    ∧ 15 - entryY.cached_at < effective_ttl cfgTtl10Stale100 uriA.path
        + effective_stale_if_error cfgTtl10Stale100 uriA.path
    ∧ ((call_upstream cfgTtl10Stale100 true baseHttp .sendError uriA 15 cacheY
          metrics0).response = some (staleResponse entryY)
      ∧ (call_upstream cfgTtl10Stale100 true baseHttp .connectError uriA 15 cacheY
          metrics0).response = none
      ∧ (call_upstream cfgTtl10Stale100 true baseHttp .handshakeError uriA 15 cacheY
          metrics0).response = none
      ∧ (call_upstream cfgTtl10Stale100 true baseHttp .bodyError uriA 15 cacheY
          metrics0).response = none) :=
  ⟨by decide, by decide, by decide, by decide,
    stale_recovery_only_on_send_failure cfgTtl10Stale100 true baseHttp uriA 15 cacheY metrics0
      entryY (by decide) (by decide) (by decide) (by decide)⟩

/-- Claim C2 (amended): a request that reaches the upstream and succeeds is
answered with the upstream body, but the downstream status is always the
builder default 200 — on both the MISS and the BYPASS path — regardless of
the upstream status `s`, which the handler never reads. -/
theorem forwarded_response_always_200 (cfg : CacheConfig) (enabled : Bool)
    (base : BaseUrl) (uri : InUri) (now : Nat) (cache : Storage) (m : Metrics)
    (s : Nat) (b : String)
    (hfwd : (call_upstream cfg enabled base (.success s b) uri now cache m).connects = 1) :
    (call_upstream cfg enabled base (.success s b) uri now cache m).response
        = some (missResponse b)
    ∨ (call_upstream cfg enabled base (.success s b) uri now cache m).response
        = some (bypassResponse b) := by
  by_cases hbyp : ruleIsBypass (cfg.find_rule uri.path) = true
  · right
    rw [call_upstream_bypass cfg enabled base (.success s b) uri now cache m hbyp]
    rfl
  · have hb := ruleIsBypass_eq_false_of_ne_true hbyp
    left
    cases hget : storageGet cache (generate_cache_key uri) with
    | none =>
      rw [call_upstream_no_entry cfg enabled base (.success s b) uri now cache m hb hget,
          call_upstream_miss_success]
    | some c =>
      by_cases hfresh : now - c.cached_at ≤ effective_ttl cfg uri.path
      · exfalso
        rw [call_upstream_hit cfg enabled base (.success s b) uri now cache m c hb hget hfresh]
          at hfwd
        simp at hfwd
      · have hstale := Nat.not_le.mp hfresh
        rw [call_upstream_stale_entry cfg enabled base (.success s b) uri now cache m c
              hb hget hstale,
            call_upstream_miss_success]

/-- Claim C2 counterexample: the upstream answers status 404 with body
`nf`; the relay responds with status 200, not 404 — the upstream status is
not reproduced. -/
theorem upstream_status_not_propagated_cex :
    ((call_upstream cfgDefault true baseHttp (.success 404 "nf") uriA 0 [] metrics0).response.map
      (fun r => r.status)) ≠ some 404 := by decide

/-- Witness for `forwarded_response_always_200`: empty cache, upstream
status 404 — the MISS disjunct is realized with status 200. -/
theorem forwarded_response_always_200_witness :
    (call_upstream cfgDefault true baseHttp (.success 404 "nf") uriA 0 [] metrics0).connects = 1
    ∧ ((call_upstream cfgDefault true baseHttp (.success 404 "nf") uriA 0 [] metrics0).response
          = some (missResponse "nf")
      ∨ (call_upstream cfgDefault true baseHttp (.success 404 "nf") uriA 0 [] metrics0).response
          = some (bypassResponse "nf")) :=
  ⟨by decide,
    forwarded_response_always_200 cfgDefault true baseHttp uriA 0 [] metrics0 404 "nf"
      (by decide)⟩

/-- Claim C10: whenever the handler returns an error to the server, no
`Storage::set` was invoked during the request and the cache content is
exactly what it was before the request. -/
theorem error_leaves_cache_unchanged (cfg : CacheConfig) (enabled : Bool)
    (base : BaseUrl) (outcome : UpstreamOutcome) (uri : InUri) (now : Nat)
    (cache : Storage) (m : Metrics)
    (herr : (call_upstream cfg enabled base outcome uri now cache m).response = none) :
    (call_upstream cfg enabled base outcome uri now cache m).sets = 0
    ∧ (call_upstream cfg enabled base outcome uri now cache m).cache = cache := by
  by_cases hbyp : ruleIsBypass (cfg.find_rule uri.path) = true
  · rw [call_upstream_bypass cfg enabled base outcome uri now cache m hbyp] at herr ⊢
    cases outcome <;> exact ⟨rfl, rfl⟩
  · have hb := ruleIsBypass_eq_false_of_ne_true hbyp
    cases hget : storageGet cache (generate_cache_key uri) with
    | none =>
      rw [call_upstream_no_entry cfg enabled base outcome uri now cache m hb hget] at herr ⊢
      cases outcome with
      | connectError => exact ⟨rfl, rfl⟩
      | handshakeError => exact ⟨rfl, rfl⟩
      | bodyError => exact ⟨rfl, rfl⟩
      | success s b =>
        rw [call_upstream_miss_success] at herr
        simp [missResponse] at herr
      | sendError =>
        rw [call_upstream_miss_sendError_none cfg enabled base uri now cache m hget]
        exact ⟨rfl, rfl⟩
    | some c =>
      by_cases hfresh : now - c.cached_at ≤ effective_ttl cfg uri.path
      · rw [call_upstream_hit cfg enabled base outcome uri now cache m c hb hget hfresh]
        exact ⟨rfl, rfl⟩
      · have hstale := Nat.not_le.mp hfresh
        rw [call_upstream_stale_entry cfg enabled base outcome uri now cache m c hb hget hstale]
          at herr ⊢
        cases outcome with
        | connectError => exact ⟨rfl, rfl⟩
        | handshakeError => exact ⟨rfl, rfl⟩
        | bodyError => exact ⟨rfl, rfl⟩
        | success s b =>
          rw [call_upstream_miss_success] at herr
          simp [missResponse] at herr
        | sendError =>
          rw [call_upstream_miss_sendError cfg enabled base uri now cache m c hget] at herr ⊢
          rcases Bool.eq_false_or_eq_true (c.is_servable_if_error (effective_ttl cfg uri.path)
              (effective_stale_if_error cfg uri.path) now) with hsv | hsv
          · simp only [hsv, if_true] at herr
            simp [staleResponse] at herr
          · simp only [hsv, Bool.false_eq_true, if_false]
            exact ⟨trivial, trivial⟩

/-- Witness for `error_leaves_cache_unchanged`: empty cache, TCP connect
failure — the handler errors and the cache is still empty. -/
theorem error_leaves_cache_unchanged_witness :
    (call_upstream cfgDefault true baseHttp .connectError uriA 0 [] metrics0).response = none
    ∧ ((call_upstream cfgDefault true baseHttp .connectError uriA 0 [] metrics0).sets = 0
      ∧ (call_upstream cfgDefault true baseHttp .connectError uriA 0 [] metrics0).cache = []) :=
  ⟨by decide,
    error_leaves_cache_unchanged cfgDefault true baseHttp .connectError uriA 0 [] metrics0
      (by decide)⟩

theorem call_upstream_reqs (cfg : CacheConfig) (enabled : Bool) (base : BaseUrl)
    (outcome : UpstreamOutcome) (uri : InUri) (now : Nat)
    (cache : Storage) (m : Metrics) :
    (call_upstream cfg enabled base outcome uri now cache m).upstreamReqs = []
    ∨ (call_upstream cfg enabled base outcome uri now cache m).upstreamReqs
        = [buildUpstreamRequest base uri.pathAndQuery] := by
  by_cases hbyp : ruleIsBypass (cfg.find_rule uri.path) = true
  · rw [call_upstream_bypass cfg enabled base outcome uri now cache m hbyp]
    cases outcome with
    | connectError => exact Or.inl rfl
    | handshakeError => exact Or.inl rfl
    | sendError => exact Or.inr rfl
    | bodyError => exact Or.inr rfl
    | success s b => exact Or.inr rfl
  · have hb := ruleIsBypass_eq_false_of_ne_true hbyp
    cases hget : storageGet cache (generate_cache_key uri) with
    | none =>
      rw [call_upstream_no_entry cfg enabled base outcome uri now cache m hb hget]
      cases outcome with
      | connectError => exact Or.inl rfl
      | handshakeError => exact Or.inl rfl
      | bodyError => exact Or.inr rfl
      | success s b => exact Or.inr rfl
      | sendError =>
        rw [call_upstream_miss_sendError_none cfg enabled base uri now cache m hget]
        exact Or.inr rfl
    | some c =>
      by_cases hfresh : now - c.cached_at ≤ effective_ttl cfg uri.path
      · rw [call_upstream_hit cfg enabled base outcome uri now cache m c hb hget hfresh]
        exact Or.inl rfl
      · have hstale := Nat.not_le.mp hfresh
        rw [call_upstream_stale_entry cfg enabled base outcome uri now cache m c hb hget hstale]
        cases outcome with
        | connectError => exact Or.inl rfl
        | handshakeError => exact Or.inl rfl
        | bodyError => exact Or.inr rfl
        | success s b => exact Or.inr rfl
        | sendError =>
          rw [call_upstream_miss_sendError cfg enabled base uri now cache m c hget]
          split
          · exact Or.inr rfl
          · exact Or.inr rfl

/-- Claim C8 (amended): every request the handler hands to `send_request`
is a GET whose URI is the configured scheme and authority followed by the
original path-and-query (defaulting to `/`), and whose `Host` header is the
upstream host alone — without the port, even when the configured URL
carries an explicit port. -/
theorem upstream_request_shape (cfg : CacheConfig) (enabled : Bool) (base : BaseUrl)
    (outcome : UpstreamOutcome) (uri : InUri) (now : Nat)
    (cache : Storage) (m : Metrics) :
    ((call_upstream cfg enabled base outcome uri now cache m).upstreamReqs).all
      (fun q => q.method == "GET" && q.hostHeader == base.host
        && q.uri == (base.scheme.getD "http") ++ "://" ++ base.authority
            ++ uri.pathAndQuery.getD "/") = true := by
  rcases call_upstream_reqs cfg enabled base outcome uri now cache m with h | h <;> rw [h]
  · rfl
  · simp [buildUpstreamRequest]

/-- Claim C8 counterexample: with the upstream URL carrying the explicit
port 8080, the issued request carries `Host: example.com`, not the full
authority `example.com:8080` the claim requires. -/
theorem host_header_omits_port_cex :
    ((call_upstream cfgDefault true basePort (.success 200 "X") uriA 0 [] metrics0).upstreamReqs.map
      (fun q => q.hostHeader)) ≠ [basePort.authority] := by decide

/-- Claim C3: the first-match scan of `find_rule` is sensitive to the order
of the compiled rule vector — two iteration orders of the same two rules,
both matching `/a/b`, resolve to different rules.  Since `compile_rules`
iterates a `HashMap<String, CacheRule>` whose order is arbitrary, the
declared configuration order does not determine which rule wins. -/
theorem find_rule_iteration_order_sensitive :
    CacheConfig.find_rule
        ⟨300, 86400, some (compile_rules globAB [("/a/*", ruleTtl1), ("/a/b", ruleBypassTrue)])⟩
        "/a/b" = some ruleTtl1
    ∧ CacheConfig.find_rule
        ⟨300, 86400, some (compile_rules globAB [("/a/b", ruleBypassTrue), ("/a/*", ruleTtl1)])⟩
        "/a/b" = some ruleBypassTrue
    ∧ ruleTtl1 ≠ ruleBypassTrue := by
  refine ⟨by decide, by decide, by decide⟩

/-- Claim C9 counterexample: after the S5 trace the miss counter is 3, not
the 2 the claim states — the stale-serving request also increments
`cache_misses_total`, because the entry was not fresh. -/
theorem s5_metrics_cex :
    (runRequests cfgDefault true baseHttp ⟨[], metrics0⟩ s5Events).metrics.cache_misses ≠ 2 := by
  decide

/-- Claim C9 (amended): the S5 trace — one MISS for `/a`, two HITs for
`/a`, one MISS for `/b`, then a request for `/a` inside the stale window
whose upstream call fails at the send step and is served STALE — leaves
the counters at hits 2, misses 3, stale-served 1, upstream-errors 1. -/
theorem s5_metrics_amended :
    (runRequests cfgDefault true baseHttp ⟨[], metrics0⟩ s5Events).metrics = ⟨2, 3, 1, 1⟩ := by
  decide

end Relay
